import Mathlib

/-!
Shallow embedding of the Factory-Pattern / hexagonal-example Go repository.

Conventions of the embedding:
- Every call the Go code makes to time.Now() becomes an explicit (now : Nat)
  argument; createdAt/updatedAt are Nat timestamps.
- Go float64 Price is modelled as GoFloat: an ordinary signed number or
  NaN.  The source never computes on prices — it only assigns them and
  compares them with < and >= — so the number/NaN distinction together with
  the IEEE/Go rule that every comparison against NaN is false is the whole
  observable behaviour of the type here.
- Go int Stock is modelled as Int, with the defined two's-complement
  wraparound of Go's 64-bit signed addition and subtraction made explicit
  through wrap64 wherever the source computes on stocks.
- A Go map[string]*T store is modelled as an association list
  List (String × T); Go map iteration order is unspecified, so the list
  order carries no meaning beyond picking one admissible order.  The store
  hands out value copies (Go: productCopy := *product), which Lean's value
  semantics gives for free.
- Fallible Go functions (returning (T, error)) become Except String T;
  the store-mutating processor operations return the result paired with
  the store after the call, so that "no store write happened" is the
  equation (op s ...).2 = s.
- A Go runtime panic (negative slice capacity, negative index) is modelled
  as Option.none in the paginated finders.
-/

/-- Model of a Go float64 as this code base observes it: the source does no
floating-point arithmetic on prices (assignments and order comparisons
only), so a value is either an ordinary signed number or NaN.  As in
IEEE 754 and Go, every order comparison involving NaN is false. -/
inductive GoFloat where
  | num : Int → GoFloat
  | nan : GoFloat
deriving DecidableEq, Repr

/-- Go's < on float64: false whenever either operand is NaN. -/
def GoFloat.flt : GoFloat → GoFloat → Bool
  | .num a, .num b => decide (a < b)
  | _, _ => false

/-- Go's <= on float64: false whenever either operand is NaN. -/
def GoFloat.fle : GoFloat → GoFloat → Bool
  | .num a, .num b => decide (a ≤ b)
  | _, _ => false

/-- Defined two's-complement wraparound of Go's 64-bit signed int addition
and subtraction: the mathematical result reduced into
[-9223372036854775808, 9223372036854775808). -/
def wrap64 (x : Int) : Int :=
  (x + 9223372036854775808) % 18446744073709551616 - 9223372036854775808

/-- User entity (src/unnamed/part_000, struct User). -/
structure User where
  ID : String
  Email : String
  Name : String
  CreatedAt : Nat
  UpdatedAt : Nat
  IsActive : Bool
deriving DecidableEq, Repr

/-- Product entity (src/hexagonal-example/domain/entities/product.go, struct Product). -/
structure Product where
  ID : String
  Name : String
  Description : String
  Price : GoFloat
  Stock : Int
  Category : String
  CreatedAt : Nat
  UpdatedAt : Nat
  IsActive : Bool
deriving DecidableEq, Repr

/-- NewUser (part_000 lines 21-43): domain-level constructor, rejects empty
fields, stamps CreatedAt = UpdatedAt = now, IsActive = true. -/
def NewUser (id email name : String) (now : Nat) : Except String User :=
  if id = "" then .error "user ID cannot be empty"
  else if email = "" then .error "user email cannot be empty"
  else if name = "" then .error "user name cannot be empty"
  else .ok { ID := id, Email := email, Name := name,
             CreatedAt := now, UpdatedAt := now, IsActive := true }

/-- User.UpdateEmail (part_000 lines 47-55). -/
def User.UpdateEmail (u : User) (newEmail : String) (now : Nat) : Except String User :=
  if newEmail = "" then .error "email cannot be empty"
  else .ok { u with Email := newEmail, UpdatedAt := now }

/-- User.UpdateName (part_000 lines 58-66). -/
def User.UpdateName (u : User) (newName : String) (now : Nat) : Except String User :=
  if newName = "" then .error "name cannot be empty"
  else .ok { u with Name := newName, UpdatedAt := now }

/-- User.Deactivate (part_000 lines 69-72). -/
def User.Deactivate (u : User) (now : Nat) : User :=
  { u with IsActive := false, UpdatedAt := now }

/-- User.Activate (part_000 lines 75-78). -/
def User.Activate (u : User) (now : Nat) : User :=
  { u with IsActive := true, UpdatedAt := now }

/-- NewProduct (product.go lines 23-51): rejects empty id/name and negative
price/stock, stamps CreatedAt = UpdatedAt = now, IsActive = true. -/
def NewProduct (id name description category : String) (price : GoFloat)
    (stock : Int) (now : Nat) : Except String Product :=
  if id = "" then .error "product ID cannot be empty"
  else if name = "" then .error "product name cannot be empty"
  else if GoFloat.flt price (GoFloat.num 0) then .error "product price cannot be negative"
  else if stock < 0 then .error "product stock cannot be negative"
  else .ok { ID := id, Name := name, Description := description,
             Price := price, Stock := stock, Category := category,
             CreatedAt := now, UpdatedAt := now, IsActive := true }

/-- Product.UpdatePrice (product.go lines 54-62). -/
def Product.UpdatePrice (p : Product) (newPrice : GoFloat) (now : Nat) : Except String Product :=
  if GoFloat.flt newPrice (GoFloat.num 0) then .error "price cannot be negative"
  else .ok { p with Price := newPrice, UpdatedAt := now }

/-- Product.UpdateStock (product.go lines 65-73). -/
def Product.UpdateStock (p : Product) (newStock : Int) (now : Nat) : Except String Product :=
  if newStock < 0 then .error "stock cannot be negative"
  else .ok { p with Stock := newStock, UpdatedAt := now }

/-- Product.AddStock (product.go lines 76-84): p.Stock += quantity is Go's
wrapping 64-bit signed addition — a quantity near 2^63 passes the
quantity <= 0 check and can wrap the stock negative. -/
def Product.AddStock (p : Product) (quantity : Int) (now : Nat) : Except String Product :=
  if quantity ≤ 0 then .error "quantity must be positive"
  else .ok { p with Stock := wrap64 (p.Stock + quantity), UpdatedAt := now }

/-- Product.RemoveStock (product.go lines 87-98): distinct errors for a
non-positive quantity and for insufficient stock; checks precede every write. -/
def Product.RemoveStock (p : Product) (quantity : Int) (now : Nat) : Except String Product :=
  if quantity ≤ 0 then .error "quantity must be positive"
  else if p.Stock < quantity then .error "insufficient stock"
  else .ok { p with Stock := wrap64 (p.Stock - quantity), UpdatedAt := now }

/-- Product.Deactivate (product.go lines 101-104). -/
def Product.Deactivate (p : Product) (now : Nat) : Product :=
  { p with IsActive := false, UpdatedAt := now }

/-- Product.Activate (product.go lines 107-110). -/
def Product.Activate (p : Product) (now : Nat) : Product :=
  { p with IsActive := true, UpdatedAt := now }

/-- Product.IsAvailable (product.go lines 113-115): active and stock > 0. -/
def Product.IsAvailable (p : Product) : Bool :=
  p.IsActive && decide (0 < p.Stock)

/-- Product.IsValid (product.go lines 118-120). -/
def Product.IsValid (p : Product) : Bool :=
  decide (p.ID ≠ "") && decide (p.Name ≠ "")
    && GoFloat.fle (GoFloat.num 0) p.Price && decide (0 ≤ p.Stock)

/-! ## The keyed in-memory store

A Go map[string]*T with upsert semantics.  storeSave replaces the binding of
the key (map assignment); lookup is List.lookup. -/

/-- Upsert into the association-list model of a Go map: the new binding for
the key replaces any previous one; all other keys keep their bindings. -/
def storeSave {α : Type} (s : List (String × α)) (k : String) (v : α) :
    List (String × α) :=
  (k, v) :: s.filter (fun kv => kv.1 != k)

abbrev UserStore := List (String × User)
abbrev ProductStore := List (String × Product)

/-- InMemoryUserRepository.Save (user_events.go lines 294-302): stores a copy
keyed by user.ID; always succeeds. -/
def InMemoryUserRepository.Save (s : UserStore) (u : User) : UserStore :=
  storeSave s u.ID u

/-- InMemoryUserRepository.FindByID (user_events.go lines 305-317): absent is
not an error; returns an independent copy. -/
def InMemoryUserRepository.FindByID (s : UserStore) (id : String) : Option User :=
  s.lookup id

/-- InMemoryUserRepository.FindByEmail (user_events.go lines 320-333): first
user (in iteration order) whose Email matches, absent otherwise. -/
def InMemoryUserRepository.FindByEmail (s : UserStore) (email : String) : Option User :=
  (s.map Prod.snd).find? (fun u => u.Email == email)

/-- InMemoryUserRepository.Exists (user_events.go lines 411-417). -/
def InMemoryUserRepository.Exists (s : UserStore) (id : String) : Bool :=
  (s.lookup id).isSome

/-- InMemoryProductRepository.Save (user_events.go lines 57-65). -/
def InMemoryProductRepository.Save (s : ProductStore) (p : Product) : ProductStore :=
  storeSave s p.ID p

/-- InMemoryProductRepository.FindByID (user_events.go lines 68-80). -/
def InMemoryProductRepository.FindByID (s : ProductStore) (id : String) : Option Product :=
  s.lookup id

/-- InMemoryProductRepository.Exists (user_events.go lines 239-245). -/
def InMemoryProductRepository.Exists (s : ProductStore) (id : String) : Bool :=
  (s.lookup id).isSome

/-- Clamp of the slice end index to the sequence length (Go:
if end > len(xs) then end = len(xs)). -/
def clampEnd (n e : Int) : Int := if e > n then n else e

/-- Pagination block shared verbatim by every paginated finder
(user_events.go FindAll/FindActive/FindAvailable/FindByCategory/...):
start := offset; end := offset + limit; if start >= len return empty;
clamp end to len; result := make(cap end-start); copy l[start:end].
Option.none models the two runtime panics the Go code can hit:
make with a negative capacity (end - start < 0), and indexing l[i] with
i < 0 when the copy loop executes. -/
def paginate {α : Type} (l : List α) (limit offset : Int) : Option (List α) :=
  if offset ≥ (l.length : Int) then some []
  else if clampEnd (l.length : Int) (offset + limit) - offset < 0 then none
  else if offset < 0 ∧ offset < clampEnd (l.length : Int) (offset + limit) then none
  else some ((l.drop offset.toNat).take (clampEnd (l.length : Int) (offset + limit) - offset).toNat)

/-- InMemoryUserRepository.FindAll (user_events.go lines 336-363): collect the
map's values, then paginate. -/
def InMemoryUserRepository.FindAll (s : UserStore) (limit offset : Int) :
    Option (List User) :=
  paginate (s.map Prod.snd) limit offset

/-- InMemoryUserRepository.FindActive (user_events.go lines 366-395): filter
active users, then paginate. -/
def InMemoryUserRepository.FindActive (s : UserStore) (limit offset : Int) :
    Option (List User) :=
  paginate ((s.map Prod.snd).filter (fun u => u.IsActive)) limit offset

/-- InMemoryProductRepository.FindAll (user_events.go lines 132-159). -/
def InMemoryProductRepository.FindAll (s : ProductStore) (limit offset : Int) :
    Option (List Product) :=
  paginate (s.map Prod.snd) limit offset

/-- InMemoryProductRepository.FindAvailable (user_events.go lines 162-191):
filter by IsAvailable, then paginate. -/
def InMemoryProductRepository.FindAvailable (s : ProductStore) (limit offset : Int) :
    Option (List Product) :=
  paginate ((s.map Prod.snd).filter (fun p => p.IsAvailable)) limit offset

/-! ## Processors (src/unnamed/part_002)

Each operation is the sole writer of its store; it returns the Go function's
(entity, error) result paired with the store after the call, so a call that
performed no Save yields exactly the input store as its second component. -/

/-- UserProcessor.CreateUser (part_002 lines 241-272): existence check, email
uniqueness check, construct via NewUser, save. -/
def UserProcessor.CreateUser (s : UserStore) (id email name : String) (now : Nat) :
    Except String User × UserStore :=
  if InMemoryUserRepository.Exists s id then (.error "user already exists", s)
  else
    match InMemoryUserRepository.FindByEmail s email with
    | some _ => (.error "email already in use", s)
    | none =>
      match NewUser id email name now with
      | .error e => (.error e, s)
      | .ok user => (.ok user, InMemoryUserRepository.Save s user)

/-- UserProcessor.GetUser (part_002 lines 353-363): read-only. -/
def UserProcessor.GetUser (s : UserStore) (id : String) : Except String User :=
  match InMemoryUserRepository.FindByID s id with
  | none => .error "user not found"
  | some user => .ok user

/-- UserProcessor.DeactivateUser (part_002 lines 317-332). -/
def UserProcessor.DeactivateUser (s : UserStore) (id : String) (now : Nat) :
    Except String User × UserStore :=
  match InMemoryUserRepository.FindByID s id with
  | none => (.error "user not found", s)
  | some user =>
    let user := user.Deactivate now
    (.ok user, InMemoryUserRepository.Save s user)

/-- UserProcessor.ActivateUser (part_002 lines 335-350). -/
def UserProcessor.ActivateUser (s : UserStore) (id : String) (now : Nat) :
    Except String User × UserStore :=
  match InMemoryUserRepository.FindByID s id with
  | none => (.error "user not found", s)
  | some user =>
    let user := user.Activate now
    (.ok user, InMemoryUserRepository.Save s user)

/-- ProductProcessor.CreateProduct (part_002 lines 23-45). -/
def ProductProcessor.CreateProduct (s : ProductStore)
    (id name description category : String) (price : GoFloat) (stock : Int) (now : Nat) :
    Except String Product × ProductStore :=
  if InMemoryProductRepository.Exists s id then (.error "product already exists", s)
  else
    match NewProduct id name description category price stock now with
    | .error e => (.error e, s)
    | .ok product => (.ok product, InMemoryProductRepository.Save s product)

/-- String-field phase of ProductProcessor.UpdateProduct (part_002 lines
59-67): Name, Description and Category are assigned directly to the loaded
copy when provided — no entity mutator is called and UpdatedAt is not
re-stamped. -/
def updateProductStringFields (p : Product) (name description category : Option String) :
    Product :=
  let p := match name with
    | some n => { p with Name := n }
    | none => p
  let p := match description with
    | some d => { p with Description := d }
    | none => p
  match category with
  | some c => { p with Category := c }
  | none => p

/-- Optional price update of UpdateProduct (part_002 lines 68-72): a provided
price goes through the UpdatePrice mutator, an absent one changes nothing. -/
def applyOptPrice (p : Product) (price : Option GoFloat) (now : Nat) : Except String Product :=
  match price with
  | some pr => p.UpdatePrice pr now
  | none => .ok p

/-- Optional stock update of UpdateProduct (part_002 lines 73-77): a provided
stock goes through the UpdateStock mutator, an absent one changes nothing. -/
def applyOptStock (p : Product) (stock : Option Int) (now : Nat) : Except String Product :=
  match stock with
  | some st => p.UpdateStock st now
  | none => .ok p

/-- Price/stock phase of ProductProcessor.UpdateProduct (part_002 lines
68-84): provided values go through the entity mutators; a mutator error
aborts before the Save, so the store is returned unchanged. -/
def updateProductPriceStock (s : ProductStore) (p : Product)
    (price : Option GoFloat) (stock : Option Int) (now : Nat) :
    Except String Product × ProductStore :=
  match applyOptPrice p price now with
  | .error e => (.error e, s)
  | .ok p =>
    match applyOptStock p stock now with
    | .error e => (.error e, s)
    | .ok p => (.ok p, InMemoryProductRepository.Save s p)

/-- ProductProcessor.UpdateProduct (part_002 lines 48-85): loads the entity,
assigns Name/Description/Category directly when provided (no mutator, no
UpdatedAt re-stamp), routes Price/Stock through the entity mutators (aborting
before the Save on their error), saves only at the end. -/
def ProductProcessor.UpdateProduct (s : ProductStore) (id : String)
    (name description category : Option String) (price : Option GoFloat)
    (stock : Option Int) (now : Nat) : Except String Product × ProductStore :=
  match InMemoryProductRepository.FindByID s id with
  | none => (.error "product not found", s)
  | some product =>
    updateProductPriceStock s (updateProductStringFields product name description category)
      price stock now

/-- ProductProcessor.UpdateStock (part_002 lines 88-106). -/
def ProductProcessor.UpdateStock (s : ProductStore) (id : String) (newStock : Int)
    (now : Nat) : Except String Product × ProductStore :=
  match InMemoryProductRepository.FindByID s id with
  | none => (.error "product not found", s)
  | some product =>
    match product.UpdateStock newStock now with
    | .error e => (.error e, s)
    | .ok product => (.ok product, InMemoryProductRepository.Save s product)

/-- ProductProcessor.AddStock (part_002 lines 109-127). -/
def ProductProcessor.AddStock (s : ProductStore) (id : String) (quantity : Int)
    (now : Nat) : Except String Product × ProductStore :=
  match InMemoryProductRepository.FindByID s id with
  | none => (.error "product not found", s)
  | some product =>
    match product.AddStock quantity now with
    | .error e => (.error e, s)
    | .ok product => (.ok product, InMemoryProductRepository.Save s product)

/-- ProductProcessor.RemoveStock (part_002 lines 130-148). -/
def ProductProcessor.RemoveStock (s : ProductStore) (id : String) (quantity : Int)
    (now : Nat) : Except String Product × ProductStore :=
  match InMemoryProductRepository.FindByID s id with
  | none => (.error "product not found", s)
  | some product =>
    match product.RemoveStock quantity now with
    | .error e => (.error e, s)
    | .ok product => (.ok product, InMemoryProductRepository.Save s product)

/-- ProductProcessor.DeactivateProduct (part_002 lines 151-166). -/
def ProductProcessor.DeactivateProduct (s : ProductStore) (id : String) (now : Nat) :
    Except String Product × ProductStore :=
  match InMemoryProductRepository.FindByID s id with
  | none => (.error "product not found", s)
  | some product =>
    let product := product.Deactivate now
    (.ok product, InMemoryProductRepository.Save s product)

/-- ProductProcessor.ActivateProduct (part_002 lines 169-184). -/
def ProductProcessor.ActivateProduct (s : ProductStore) (id : String) (now : Nat) :
    Except String Product × ProductStore :=
  match InMemoryProductRepository.FindByID s id with
  | none => (.error "product not found", s)
  | some product =>
    let product := product.Activate now
    (.ok product, InMemoryProductRepository.Save s product)

/-- ProductProcessor.GetProduct (part_002 lines 187-197). -/
def ProductProcessor.GetProduct (s : ProductStore) (id : String) : Except String Product :=
  match InMemoryProductRepository.FindByID s id with
  | none => .error "product not found"
  | some product => .ok product

/-! ## Validator (src/hexagonal-example/application/services/user_validator.go)

Pure, stateless field checks.  Go len(s) counts bytes, modelled by
String.utf8ByteSize; strings.TrimSpace is modelled by trimSpace below. -/

/-- Model of Go strings.TrimSpace: drop leading and trailing whitespace. -/
def trimSpace (s : String) : String :=
  ⟨((s.data.dropWhile Char.isWhitespace).reverse.dropWhile Char.isWhitespace).reverse⟩

/-- Model of Go len(s): the byte length of the string. -/
def goLen (s : String) : Nat := s.utf8ByteSize

/-- UserValidator.validateID (user_validator.go lines 71-82): non-blank,
byte length in [3, 50]. -/
def UserValidator.validateID (id : String) : Option String :=
  if trimSpace id = "" then some "user ID cannot be empty"
  else if goLen id < 3 then some "user ID must be at least 3 characters long"
  else if goLen id > 50 then some "user ID cannot exceed 50 characters"
  else none

/-- Character class [a-zA-Z0-9._%+-] of the validator's email regexp. -/
def emailLocalChar (c : Char) : Bool :=
  c.isAlpha || c.isDigit || c == '.' || c == '_' || c == '%' || c == '+' || c == '-'

/-- Character class [a-zA-Z0-9.-] of the validator's email regexp. -/
def emailDomainChar (c : Char) : Bool :=
  c.isAlpha || c.isDigit || c == '.' || c == '-'

/-- Matching of the anchored tail [a-zA-Z0-9.-]+[.][a-zA-Z]{2,} of the email
regexp: some split into a non-empty domain-char run, a dot, and at least two
trailing letters. -/
def emailTailMatch (b : List Char) : Bool :=
  (List.range b.length).any fun i =>
    match b.drop i with
    | '.' :: d =>
      !(b.take i).isEmpty && (b.take i).all emailDomainChar
        && decide (2 ≤ d.length) && d.all Char.isAlpha
    | _ => false

/-- Matching of the validator's anchored regexp
^[a-zA-Z0-9._%+-]+@[a-zA-Z0-9.-]+[.][a-zA-Z]{2,}$ (user_validator.go line 19):
the class before @ contains no @, so the split is at the first @. -/
def emailRegexMatch (s : String) : Bool :=
  let a := s.data.takeWhile (fun c => c != '@')
  match s.data.dropWhile (fun c => c != '@') with
  | '@' :: b => !a.isEmpty && a.all emailLocalChar && emailTailMatch b
  | _ => false

/-- UserValidator.validateEmail (user_validator.go lines 85-96). -/
def UserValidator.validateEmail (email : String) : Option String :=
  if trimSpace email = "" then some "email cannot be empty"
  else if goLen email > 255 then some "email cannot exceed 255 characters"
  else if !emailRegexMatch email then some "invalid email format"
  else none

/-- UserValidator.validateName (user_validator.go lines 99-109). -/
def UserValidator.validateName (name : String) : Option String :=
  if trimSpace name = "" then some "name cannot be empty"
  else if goLen name < 2 then some "name must be at least 2 characters long"
  else if goLen name > 100 then some "name cannot exceed 100 characters"
  else none

/-- UserValidator.ValidateCreateUser (user_validator.go lines 27-44): first
failing rule's error, in the order id, email, name. -/
def UserValidator.ValidateCreateUser (id email name : String) : Option String :=
  match UserValidator.validateID id with
  | some e => some e
  | none =>
    match UserValidator.validateEmail email with
    | some e => some e
    | none => UserValidator.validateName name

/-! ## Service (src/unnamed/part_001)

UserService.CreateUser: Validator, then Processor, then event publication.
The publication step (part_001 lines 41-46) calls the publisher whose
InMemoryEventBus.Publish always returns nil, and the service explicitly
discards any error from it, so it has no effect on the returned entity or
the store; the model therefore composes only the validator and processor. -/

/-- UserService.CreateUser (part_001 lines 28-49): validation failure returns
the error before any processor call, so the store is untouched. -/
def UserService.CreateUser (s : UserStore) (id email name : String) (now : Nat) :
    Except String User × UserStore :=
  match UserValidator.ValidateCreateUser id email name with
  | some e => (.error e, s)
  | none => UserProcessor.CreateUser s id email name now

/-! ## Event bus (src/unnamed/part_003)

Handlers are modelled as pure functions from the payload to the error the
Handle call returns; κ stands for Go's interface element type of the payload. -/

/-- InMemoryEventBus (part_003 lines 36-39): a map from event-type tag to the
list of subscribed handlers, append order = registration order. -/
structure InMemoryEventBus (κ : Type) where
  handlers : List (String × List (κ → Except String Unit))

/-- Handler list currently subscribed to an event type; a missing key is the
empty list (a nil Go slice). -/
def InMemoryEventBus.handlersFor {κ : Type} (b : InMemoryEventBus κ) (eventType : String) :
    List (κ → Except String Unit) :=
  (b.handlers.lookup eventType).getD []

/-- InMemoryEventBus.Subscribe (part_003 lines 67-72): appends the handler to
the type's list. -/
def InMemoryEventBus.Subscribe {κ : Type} (b : InMemoryEventBus κ) (eventType : String)
    (handler : κ → Except String Unit) : InMemoryEventBus κ :=
  { handlers := storeSave b.handlers eventType (b.handlersFor eventType ++ [handler]) }

/-- Results of the handler invocations a Publish performs, in invocation
order (part_003 lines 55-61: the loop over the type's handler slice). -/
def InMemoryEventBus.handlerResults {κ : Type} (b : InMemoryEventBus κ)
    (eventType : String) (event : κ) : List (Except String Unit) :=
  (b.handlersFor eventType).map (fun h => h event)

/-- InMemoryEventBus.Publish (part_003 lines 49-64): runs every handler for
the type in registration order, discards each handler's error (the Go loop
body is empty on error), and returns nil. -/
def InMemoryEventBus.Publish {κ : Type} (b : InMemoryEventBus κ) (eventType : String)
    (event : κ) : Except String Unit :=
  (b.handlerResults eventType event).foldl
    (fun acc r => match r with
      | .error _ => acc
      | .ok _ => acc)
    (.ok ())

/-! ## Shared lemmas about the store model -/

/-- Saving binds the key to the new value. -/
theorem lookup_storeSave_self {α : Type} (s : List (String × α)) (k : String) (v : α) :
    (storeSave s k v).lookup k = some v := by
  simp [storeSave, List.lookup]

/-- Filtering out one key's binding does not change lookups of other keys. -/
theorem lookup_filter_ne {α : Type} {k k' : String} (h : k' ≠ k) (s : List (String × α)) :
    (s.filter (fun kv => kv.1 != k)).lookup k' = s.lookup k' := by
  induction s with
  | nil => rfl
  | cons a t ih =>
    cases a with
    | mk a1 a2 =>
      by_cases ha : a1 = k
      · have hk' : (k' == a1) = false := by simp [ha ▸ h]
        simp only [List.filter_cons, show ((a1, a2).1 != k) = false by simp [ha],
          if_false, Bool.false_eq_true]
        rw [ih]
        simp [List.lookup, hk']
      · simp only [List.filter_cons, show ((a1, a2).1 != k) = true by simp [ha], if_true]
        by_cases hk' : k' = a1
        · subst hk'
          simp [List.lookup]
        · simp [List.lookup, show (k' == a1) = false by simp [hk'], ih]

/-- Saving leaves every other key's binding unchanged. -/
theorem lookup_storeSave_ne {α : Type} (s : List (String × α)) {k k' : String} (v : α)
    (h : k' ≠ k) : (storeSave s k v).lookup k' = s.lookup k' := by
  rw [storeSave]
  rw [show List.lookup k' ((k, v) :: s.filter (fun kv => kv.1 != k))
      = (s.filter (fun kv => kv.1 != k)).lookup k' by
    simp [List.lookup, show (k' == k) = false by simp [h]]]
  exact lookup_filter_ne h s

/-- Membership in a saved store: the new binding or an old one with a
different key. -/
theorem mem_storeSave {α : Type} {s : List (String × α)} {k : String} {v : α}
    {kv : String × α} (h : kv ∈ storeSave s k v) : kv = (k, v) ∨ kv ∈ s := by
  simp only [storeSave, List.mem_cons] at h
  rcases h with h | h
  · exact Or.inl h
  · exact Or.inr (List.mem_of_mem_filter h)

/-- Looked-up bindings are members of the store. -/
theorem lookup_mem {α : Type} {s : List (String × α)} {k : String} {v : α}
    (h : s.lookup k = some v) : (k, v) ∈ s := by
  induction s with
  | nil => simp [List.lookup] at h
  | cons a t ih =>
    cases a with
    | mk a1 a2 =>
      rw [List.lookup] at h
      by_cases hk : k = a1
      · subst hk
        simp at h
        subst h
        exact List.mem_cons_self _ _
      · rw [show (k == a1) = false by simp [hk]] at h
        exact List.mem_cons_of_mem _ (ih h)

/-- Characterization of a successful NewUser call. -/
theorem NewUser_ok {id email name : String} {now : Nat} {u : User}
    (h : NewUser id email name now = .ok u) :
    id ≠ "" ∧ email ≠ "" ∧ name ≠ "" ∧
      u = { ID := id, Email := email, Name := name,
            CreatedAt := now, UpdatedAt := now, IsActive := true } := by
  unfold NewUser at h
  split at h
  · exact absurd h (by simp)
  · split at h
    · exact absurd h (by simp)
    · split at h
      · exact absurd h (by simp)
      · simp_all

/-- Characterization of a successful NewProduct call. -/
theorem NewProduct_ok {id name d c : String} {price : GoFloat} {stock : Int}
    {now : Nat} {p : Product}
    (h : NewProduct id name d c price stock now = .ok p) :
    id ≠ "" ∧ name ≠ "" ∧ GoFloat.flt price (GoFloat.num 0) = false ∧ 0 ≤ stock ∧
      p = { ID := id, Name := name, Description := d, Price := price, Stock := stock,
            Category := c, CreatedAt := now, UpdatedAt := now, IsActive := true } := by
  unfold NewProduct at h
  split at h
  · exact absurd h (by simp)
  · split at h
    · exact absurd h (by simp)
    · split at h
      · exact absurd h (by simp)
      · split at h
        · exact absurd h (by simp)
        · simp_all

/-- Values already inside the 64-bit signed range are fixed by wrap64. -/
theorem wrap64_eq_self {x : Int} (h1 : -9223372036854775808 ≤ x)
    (h2 : x < 9223372036854775808) : wrap64 x = x := by
  unfold wrap64
  omega

/-- A sum that overflows the 64-bit signed range (by less than one full
wrap) comes back negative. -/
theorem wrap64_neg_of_overflow {x : Int} (h1 : 9223372036854775808 ≤ x)
    (h2 : x < 18446744073709551616) : wrap64 x < 0 := by
  unfold wrap64
  omega

/-- Normal-form of the pagination block for non-negative limit and offset:
the page is drop offset then take limit of the filtered sequence. -/
theorem paginate_nonneg {α : Type} (l : List α) (limit offset : Int)
    (ho : 0 ≤ offset) (hl : 0 ≤ limit) :
    paginate l limit offset = some ((l.drop offset.toNat).take limit.toNat) := by
  unfold paginate
  by_cases h1 : offset ≥ (l.length : Int)
  · rw [if_pos h1]
    have hd : l.drop offset.toNat = [] := by
      apply List.drop_eq_nil_of_le
      omega
    simp [hd]
  · rw [if_neg h1]
    have hofn : offset < (l.length : Int) := lt_of_not_ge h1
    by_cases h2 : offset + limit > (l.length : Int)
    · rw [show clampEnd (l.length : Int) (offset + limit) = (l.length : Int) from if_pos h2]
      rw [if_neg (by omega : ¬((l.length : Int) - offset < 0))]
      rw [if_neg (by omega : ¬(offset < 0 ∧ offset < (l.length : Int)))]
      congr 1
      have hlen : (l.drop offset.toNat).length = ((l.length : Int) - offset).toNat := by
        rw [List.length_drop]
        omega
      rw [List.take_of_length_le (by omega), List.take_of_length_le (by omega)]
    · rw [show clampEnd (l.length : Int) (offset + limit) = offset + limit from if_neg h2]
      rw [if_neg (by omega : ¬(offset + limit - offset < 0))]
      rw [if_neg (by omega : ¬(offset < 0 ∧ offset < offset + limit))]
      have h3 : offset + limit - offset = limit := by ring
      rw [h3]

/-- C1: for every valid (id, email, name) and an initially empty user store,
UserProcessor.CreateUser followed by UserProcessor.GetUser of the same id
returns a user whose ID, Email and Name are exactly the arguments, whose
IsActive flag is true, and whose CreatedAt equals its UpdatedAt. -/
theorem c1_create_then_get (id email name : String) (now : Nat)
    (hid : id ≠ "") (hemail : email ≠ "") (hname : name ≠ "") :
    ∃ u s', UserProcessor.CreateUser [] id email name now = (.ok u, s') ∧
      UserProcessor.GetUser s' id = .ok u ∧
      u.ID = id ∧ u.Email = email ∧ u.Name = name ∧
      u.IsActive = true ∧ u.CreatedAt = u.UpdatedAt := by
  refine ⟨{ ID := id, Email := email, Name := name,
            CreatedAt := now, UpdatedAt := now, IsActive := true },
          [(id, { ID := id, Email := email, Name := name,
                  CreatedAt := now, UpdatedAt := now, IsActive := true })],
          ?_, ?_, rfl, rfl, rfl, rfl, rfl⟩
  · simp [UserProcessor.CreateUser, InMemoryUserRepository.Exists,
      InMemoryUserRepository.FindByEmail, NewUser, hid, hemail, hname,
      List.lookup, InMemoryUserRepository.Save, storeSave]
  · simp [UserProcessor.GetUser, InMemoryUserRepository.FindByID, List.lookup]

/-- Concrete instantiation of c1_create_then_get at ("u-1", "a@b.co", "Ann"). -/
theorem c1_create_then_get_witness :
    ∃ u s', UserProcessor.CreateUser [] "u-1" "a@b.co" "Ann" 0 = (.ok u, s') ∧
      UserProcessor.GetUser s' "u-1" = .ok u ∧
      u.ID = "u-1" ∧ u.Email = "a@b.co" ∧ u.Name = "Ann" ∧
      u.IsActive = true ∧ u.CreatedAt = u.UpdatedAt :=
  c1_create_then_get "u-1" "a@b.co" "Ann" 0 (by decide) (by decide) (by decide)

/-- C6: a create request whose identifier is shorter than 3 bytes fails in
the validator with a validation error and performs no store write: for every
store state the service returns the error paired with the unchanged store. -/
theorem c6_short_id_create_rejected (s : UserStore) (id email name : String) (now : Nat)
    (h : goLen id < 3) :
    ∃ e, UserService.CreateUser s id email name now = (.error e, s) := by
  unfold UserService.CreateUser UserValidator.ValidateCreateUser UserValidator.validateID
  by_cases ht : trimSpace id = ""
  · exact ⟨"user ID cannot be empty", by simp [ht]⟩
  · exact ⟨"user ID must be at least 3 characters long", by simp [ht, h]⟩

/-- Concrete instantiation of c6_short_id_create_rejected at id "ab". -/
theorem c6_short_id_create_rejected_witness :
    ∃ e, UserService.CreateUser [] "ab" "a@b.co" "Ann" 0 = (.error e, []) :=
  c6_short_id_create_rejected [] "ab" "a@b.co" "Ann" 0 (by decide)

/-- C10: the paginated finders are not total in limit: on any non-empty
store, FindAll with offset 0 and a negative limit reaches
make with capacity end - start < 0 and panics (modelled as none) instead of
returning a sequence or an error; likewise for the product store. -/
theorem c10_negative_limit_panics :
    (∀ (s : UserStore) (limit : Int), s ≠ [] → limit < 0 →
      InMemoryUserRepository.FindAll s limit 0 = none) ∧
    (∀ (s : ProductStore) (limit : Int), s ≠ [] → limit < 0 →
      InMemoryProductRepository.FindAll s limit 0 = none) := by
  constructor
  · intro s limit hs hlim
    unfold InMemoryUserRepository.FindAll paginate
    have hn : 1 ≤ ((s.map Prod.snd).length : Int) := by
      have := List.length_pos.mpr hs
      simp only [List.length_map]
      omega
    rw [if_neg (by omega)]
    rw [show clampEnd ((s.map Prod.snd).length : Int) (0 + limit) = 0 + limit from
      if_neg (by omega)]
    rw [if_pos (by omega)]
  · intro s limit hs hlim
    unfold InMemoryProductRepository.FindAll paginate
    have hn : 1 ≤ ((s.map Prod.snd).length : Int) := by
      have := List.length_pos.mpr hs
      simp only [List.length_map]
      omega
    rw [if_neg (by omega)]
    rw [show clampEnd ((s.map Prod.snd).length : Int) (0 + limit) = 0 + limit from
      if_neg (by omega)]
    rw [if_pos (by omega)]

/-- Concrete instantiation of c10_negative_limit_panics: limit -1 on a
one-user store panics. -/
theorem c10_negative_limit_panics_witness :
    InMemoryUserRepository.FindAll
      [("u-1", { ID := "u-1", Email := "a@b.co", Name := "Ann",
                 CreatedAt := 0, UpdatedAt := 0, IsActive := true })] (-1) 0 = none :=
  c10_negative_limit_panics.1 _ (-1) (by decide) (by decide)

/-- Projection of the error of an Except result, for decidable statements. -/
def errorOf {α : Type} : Except String α → Option String
  | .error e => some e
  | .ok _ => none

/-- Projection of the success value of an Except result. -/
def okOf {α : Type} : Except String α → Option α
  | .error _ => none
  | .ok a => some a

/-- Demonstration store used by the concrete claims: one product with id
"prod-1", price 5 and stock 10, created at time 0. -/
def demoProductStore : ProductStore :=
  (ProductProcessor.CreateProduct [] "prod-1" "Widget" "A widget" "tools"
    (GoFloat.num 5) 10 0).2

/-- Store after adding 5 units of stock to the demo product at time 1. -/
def demoAfterAdd5 : ProductStore :=
  (ProductProcessor.AddStock demoProductStore "prod-1" 5 1).2

/-- Store after further adding 10 units of stock at time 2. -/
def demoAfterAdd10 : ProductStore :=
  (ProductProcessor.AddStock demoAfterAdd5 "prod-1" 10 2).2

/-- C4: on a product with initial stock 10, AddStock 5 then AddStock 10
yields stored stock 25; RemoveStock 30 then fails with the distinct
insufficient-stock error, leaves the store unchanged, and the stored stock
stays 25 (no partial decrement). -/
theorem c4_add_add_remove_insufficient :
    ((InMemoryProductRepository.FindByID demoAfterAdd5 "prod-1").map
        (fun p => p.Stock) = some 15) ∧
    ((InMemoryProductRepository.FindByID demoAfterAdd10 "prod-1").map
        (fun p => p.Stock) = some 25) ∧
    (errorOf (ProductProcessor.RemoveStock demoAfterAdd10 "prod-1" 30 3).1
        = some "insufficient stock") ∧
    ((ProductProcessor.RemoveStock demoAfterAdd10 "prod-1" 30 3).2 = demoAfterAdd10) ∧
    ((InMemoryProductRepository.FindByID
        (ProductProcessor.RemoveStock demoAfterAdd10 "prod-1" 30 3).2 "prod-1").map
        (fun p => p.Stock) = some 25) := by
  decide

/-- Helper for C5: a successful UserProcessor.CreateUser pins down the
constructed user and the saved store. -/
theorem createUser_ok {s : UserStore} {id email name : String} {now : Nat}
    {u : User} {s1 : UserStore}
    (h : UserProcessor.CreateUser s id email name now = (.ok u, s1)) :
    u.ID = id ∧ s1 = InMemoryUserRepository.Save s u := by
  unfold UserProcessor.CreateUser at h
  by_cases hE : InMemoryUserRepository.Exists s id
  · rw [if_pos hE] at h
    exact absurd h (by simp)
  · rw [if_neg hE] at h
    cases hFE : InMemoryUserRepository.FindByEmail s email with
    | some w =>
      rw [hFE] at h
      exact absurd h (by simp)
    | none =>
      rw [hFE] at h
      cases hN : NewUser id email name now with
      | error e =>
        rw [hN] at h
        exact absurd h (by simp)
      | ok w =>
        rw [hN] at h
        simp only [Prod.mk.injEq, Except.ok.injEq] at h
        obtain ⟨hu, hs1⟩ := h
        subst hu
        obtain ⟨-, -, -, hw⟩ := NewUser_ok hN
        exact ⟨by rw [hw], hs1.symm⟩

/-- Helper for C5: a successful ProductProcessor.CreateProduct pins down the
constructed product and the saved store. -/
theorem createProduct_ok {s : ProductStore} {id name d c : String}
    {price : GoFloat} {stock : Int} {now : Nat} {p : Product} {s1 : ProductStore}
    (h : ProductProcessor.CreateProduct s id name d c price stock now = (.ok p, s1)) :
    p.ID = id ∧ s1 = InMemoryProductRepository.Save s p := by
  unfold ProductProcessor.CreateProduct at h
  by_cases hE : InMemoryProductRepository.Exists s id
  · rw [if_pos hE] at h
    exact absurd h (by simp)
  · rw [if_neg hE] at h
    cases hN : NewProduct id name d c price stock now with
    | error e =>
      rw [hN] at h
      exact absurd h (by simp)
    | ok w =>
      rw [hN] at h
      simp only [Prod.mk.injEq, Except.ok.injEq] at h
      obtain ⟨hp, hs1⟩ := h
      subst hp
      obtain ⟨-, -, -, -, hw⟩ := NewProduct_ok hN
      exact ⟨by rw [hw], hs1.symm⟩

/-- C5: for both entity kinds, after a successful create of an identifier a
second sequential create with the same identifier fails with the
already-exists error, and the store after the second call still holds
exactly the entity of the first. -/
theorem c5_second_create_already_exists :
    (∀ (s : UserStore) (id email name : String) (now : Nat) (u : User)
        (s1 : UserStore) (email2 name2 : String) (now2 : Nat),
      UserProcessor.CreateUser s id email name now = (.ok u, s1) →
        UserProcessor.CreateUser s1 id email2 name2 now2
            = (.error "user already exists", s1) ∧
          InMemoryUserRepository.FindByID s1 id = some u) ∧
    (∀ (s : ProductStore) (id name d c : String) (price : GoFloat) (stock : Int)
        (now : Nat) (p : Product) (s1 : ProductStore) (name2 d2 c2 : String)
        (price2 : GoFloat) (stock2 : Int) (now2 : Nat),
      ProductProcessor.CreateProduct s id name d c price stock now = (.ok p, s1) →
        ProductProcessor.CreateProduct s1 id name2 d2 c2 price2 stock2 now2
            = (.error "product already exists", s1) ∧
          InMemoryProductRepository.FindByID s1 id = some p) := by
  constructor
  · intro s id email name now u s1 email2 name2 now2 h
    obtain ⟨hid, hs1⟩ := createUser_ok h
    have hfind : InMemoryUserRepository.FindByID s1 id = some u := by
      rw [hs1]
      unfold InMemoryUserRepository.FindByID InMemoryUserRepository.Save
      rw [← hid]
      exact lookup_storeSave_self s u.ID u
    refine ⟨?_, hfind⟩
    unfold UserProcessor.CreateUser
    rw [if_pos ?_]
    unfold InMemoryUserRepository.Exists
    have : s1.lookup id = some u := hfind
    rw [this]
    rfl
  · intro s id name d c price stock now p s1 name2 d2 c2 price2 stock2 now2 h
    obtain ⟨hid, hs1⟩ := createProduct_ok h
    have hfind : InMemoryProductRepository.FindByID s1 id = some p := by
      rw [hs1]
      unfold InMemoryProductRepository.FindByID InMemoryProductRepository.Save
      rw [← hid]
      exact lookup_storeSave_self s p.ID p
    refine ⟨?_, hfind⟩
    unfold ProductProcessor.CreateProduct
    rw [if_pos ?_]
    unfold InMemoryProductRepository.Exists
    have : s1.lookup id = some p := hfind
    rw [this]
    rfl

/-- C7: pagination of the list/scan operations is applied after predicate
filtering; offset at or past the matched count yields the empty sequence;
offset + limit past the matched count truncates to the remaining entities
instead of erroring; with 15 entities, limit 10 offset 0 returns exactly 10,
offset 15 returns none of them, and offset 12 limit 10 returns exactly 3. -/
theorem c7_pagination_semantics :
    (∀ (α : Type) (l : List α) (limit offset : Int),
      offset ≥ (l.length : Int) → paginate l limit offset = some []) ∧
    (∀ (α : Type) (l : List α) (limit offset : Int),
      0 ≤ offset → 0 ≤ limit → (l.length : Int) ≤ offset + limit →
      paginate l limit offset = some (l.drop offset.toNat)) ∧
    (∀ (s : ProductStore) (limit offset : Int),
      InMemoryProductRepository.FindAvailable s limit offset
        = paginate ((s.map Prod.snd).filter (fun p => p.IsAvailable)) limit offset) ∧
    (∀ (s : UserStore), (s.map Prod.snd).length = 15 →
      (InMemoryUserRepository.FindAll s 10 0).map List.length = some 10 ∧
      InMemoryUserRepository.FindAll s 10 15 = some [] ∧
      (InMemoryUserRepository.FindAll s 10 12).map List.length = some 3) := by
  refine ⟨?_, ?_, ?_, ?_⟩
  · intro α l limit offset h
    unfold paginate
    rw [if_pos h]
  · intro α l limit offset ho hl hsum
    rw [paginate_nonneg l limit offset ho hl]
    congr 1
    apply List.take_of_length_le
    rw [List.length_drop]
    omega
  · intro s limit offset
    rfl
  · intro s h15
    refine ⟨?_, ?_, ?_⟩
    · unfold InMemoryUserRepository.FindAll
      rw [paginate_nonneg _ 10 0 (by omega) (by omega)]
      simp [List.length_take, List.length_drop, h15]
    · unfold InMemoryUserRepository.FindAll
      unfold paginate
      rw [if_pos (by rw [h15]; norm_num)]
    · unfold InMemoryUserRepository.FindAll
      rw [paginate_nonneg _ 10 12 (by omega) (by omega)]
      simp [List.length_take, List.length_drop, h15]

/-- Fifteen-user store used to instantiate the concrete part of C7. -/
def c7DemoUsers : UserStore :=
  (List.range 15).map (fun i =>
    (toString i, { ID := toString i, Email := toString i ++ "@x.co", Name := "U",
                   CreatedAt := 0, UpdatedAt := 0, IsActive := true }))

/-- Concrete instantiation of c7_pagination_semantics on a 15-user store. -/
theorem c7_pagination_semantics_witness :
    (InMemoryUserRepository.FindAll c7DemoUsers 10 0).map List.length = some 10 ∧
    InMemoryUserRepository.FindAll c7DemoUsers 10 15 = some [] ∧
    (InMemoryUserRepository.FindAll c7DemoUsers 10 12).map List.length = some 3 :=
  c7_pagination_semantics.2.2.2 c7DemoUsers (by decide)

/-- Folding the event-publication loop never changes the accumulated nil
result: the loop body discards each handler's error. -/
theorem publishFold_const (l : List (Except String Unit)) (acc : Except String Unit) :
    l.foldl (fun acc r => match r with
      | .error _ => acc
      | .ok _ => acc) acc = acc := by
  induction l generalizing acc with
  | nil => rfl
  | cons r t ih =>
    rw [List.foldl_cons]
    cases r with
    | error e => exact ih acc
    | ok u => exact ih acc

/-- C8: Publish always reports success — with zero subscribed handlers it
dispatches to nobody and succeeds, it invokes the currently subscribed
handlers of the type in registration order (Subscribe appends, other types
are untouched), and handler errors are discarded, never surfacing to the
publisher. -/
theorem c8_publish_semantics :
    (∀ (κ : Type) (b : InMemoryEventBus κ) (t : String) (e : κ),
      b.Publish t e = .ok ()) ∧
    (∀ (κ : Type) (b : InMemoryEventBus κ) (t : String) (e : κ),
      b.handlersFor t = [] → b.handlerResults t e = []) ∧
    (∀ (κ : Type) (b : InMemoryEventBus κ) (t : String) (h : κ → Except String Unit),
      (b.Subscribe t h).handlersFor t = b.handlersFor t ++ [h]) ∧
    (∀ (κ : Type) (b : InMemoryEventBus κ) (t t' : String) (h : κ → Except String Unit),
      t' ≠ t → (b.Subscribe t h).handlersFor t' = b.handlersFor t') ∧
    (∀ (κ : Type) (b : InMemoryEventBus κ) (t : String) (e : κ)
        (h : κ → Except String Unit),
      (b.Subscribe t h).handlerResults t e = b.handlerResults t e ++ [h e]) := by
  refine ⟨?_, ?_, ?_, ?_, ?_⟩
  · intro κ b t e
    unfold InMemoryEventBus.Publish
    exact publishFold_const _ _
  · intro κ b t e h
    unfold InMemoryEventBus.handlerResults
    rw [h]
    rfl
  · intro κ b t h
    unfold InMemoryEventBus.handlersFor InMemoryEventBus.Subscribe
    rw [lookup_storeSave_self]
    rfl
  · intro κ b t t' h hne
    unfold InMemoryEventBus.handlersFor InMemoryEventBus.Subscribe
    rw [lookup_storeSave_ne _ _ hne]
  · intro κ b t e h
    unfold InMemoryEventBus.handlerResults
    rw [show (b.Subscribe t h).handlersFor t = b.handlersFor t ++ [h] by
      unfold InMemoryEventBus.handlersFor InMemoryEventBus.Subscribe
      rw [lookup_storeSave_self]
      rfl]
    rw [List.map_append]
    rfl

/-- Concrete instantiation of c8_publish_semantics: publishing on an empty
bus and on a bus whose one handler fails both report success. -/
theorem c8_publish_semantics_witness :
    InMemoryEventBus.Publish (⟨[]⟩ : InMemoryEventBus Unit) "user.created" () = .ok ()
      ∧ InMemoryEventBus.Publish
          ((⟨[]⟩ : InMemoryEventBus Unit).Subscribe "user.created"
            (fun _ => .error "handler failed")) "user.created" () = .ok () :=
  ⟨c8_publish_semantics.1 Unit ⟨[]⟩ "user.created" (),
   c8_publish_semantics.1 Unit _ "user.created" ()⟩

/-- Helper for C2: a provided negative price or stock makes the price/stock
phase of UpdateProduct fail before the Save, whatever entity it was given. -/
theorem updatePS_neg (s : ProductStore) (p : Product) (price : Option GoFloat)
    (stock : Option Int) (now : Nat)
    (h : (∃ v, price = some v ∧ GoFloat.flt v (GoFloat.num 0) = true) ∨
         (∃ w, stock = some w ∧ w < 0)) :
    ∃ e, updateProductPriceStock s p price stock now = (.error e, s) := by
  rcases h with ⟨v, hv, hneg⟩ | ⟨w, hw, hneg⟩
  · subst hv
    refine ⟨"price cannot be negative", ?_⟩
    unfold updateProductPriceStock
    have hP : applyOptPrice p (some v) now = .error "price cannot be negative" := by
      simp [applyOptPrice, Product.UpdatePrice, hneg]
    rw [hP]
  · subst hw
    unfold updateProductPriceStock
    cases hP : applyOptPrice p price now with
    | error e => exact ⟨e, rfl⟩
    | ok q =>
      refine ⟨"stock cannot be negative", ?_⟩
      have hS : applyOptStock q (some w) now = .error "stock cannot be negative" := by
        simp [applyOptStock, Product.UpdateStock, hneg]
      simp only [hS]

/-- C2 (amended): for every stored product and every multi-field update
request whose provided price or provided stock is negative, UpdateProduct
returns an error and the store is unchanged — no partial state from the
fields applied before the failing one is saved. -/
theorem c2_negative_update_rejected (s : ProductStore) (id : String)
    (name d c : Option String) (price : Option GoFloat) (stock : Option Int)
    (now : Nat)
    (h : (∃ v, price = some v ∧ GoFloat.flt v (GoFloat.num 0) = true) ∨
         (∃ w, stock = some w ∧ w < 0)) :
    ∃ e, ProductProcessor.UpdateProduct s id name d c price stock now
      = (.error e, s) := by
  unfold ProductProcessor.UpdateProduct
  cases hF : InMemoryProductRepository.FindByID s id with
  | none => exact ⟨"product not found", rfl⟩
  | some p =>
    exact updatePS_neg s _ price stock now h

/-- Concrete instantiation of c2_negative_update_rejected with price -1. -/
theorem c2_negative_update_rejected_witness :
    ∃ e, ProductProcessor.UpdateProduct demoProductStore "prod-1" none none none
      (some (GoFloat.num (-1))) none 5 = (.error e, demoProductStore) :=
  c2_negative_update_rejected demoProductStore "prod-1" none none none
    (some (GoFloat.num (-1))) none 5 (Or.inl ⟨GoFloat.num (-1), rfl, by decide⟩)

/-- Counterexample to C2 as stated: an update request providing an empty
Name — a field value that violates the entity's own invariant (NewProduct
rejects it and IsValid is false on it) — is not rejected: UpdateProduct
returns success and persists the now-invalid entity, because the string
fields are assigned directly instead of through a checking mutator. -/
theorem c2_as_stated_counterexample :
    (okOf (ProductProcessor.UpdateProduct demoProductStore "prod-1" (some "") none
        none none none 5).1).map Product.IsValid = some false ∧
    (InMemoryProductRepository.FindByID
        (ProductProcessor.UpdateProduct demoProductStore "prod-1" (some "") none
          none none none 5).2 "prod-1").map Product.IsValid = some false ∧
    (ProductProcessor.UpdateProduct demoProductStore "prod-1" (some "") none
        none none none 5).2 ≠ demoProductStore := by
  decide

/-- Characterization of a successful UpdatePrice: the price was non-negative
and the result re-stamps UpdatedAt. -/
theorem UpdatePrice_ok {p : Product} {v : GoFloat} {now : Nat} {q : Product}
    (h : p.UpdatePrice v now = .ok q) :
    GoFloat.flt v (GoFloat.num 0) = false ∧ q = { p with Price := v, UpdatedAt := now } := by
  unfold Product.UpdatePrice at h
  split at h
  · exact absurd h (by simp)
  · rename_i hv
    simp only [Except.ok.injEq] at h
    exact ⟨by simpa using hv, h.symm⟩

/-- Characterization of a successful UpdateStock. -/
theorem UpdateStock_ok {p : Product} {v : Int} {now : Nat} {q : Product}
    (h : p.UpdateStock v now = .ok q) :
    0 ≤ v ∧ q = { p with Stock := v, UpdatedAt := now } := by
  unfold Product.UpdateStock at h
  split at h
  · exact absurd h (by simp)
  · rename_i hv
    simp only [Except.ok.injEq] at h
    exact ⟨by omega, h.symm⟩

/-- Characterization of a successful AddStock. -/
theorem AddStock_ok {p : Product} {v : Int} {now : Nat} {q : Product}
    (h : p.AddStock v now = .ok q) :
    0 < v ∧ q = { p with Stock := wrap64 (p.Stock + v), UpdatedAt := now } := by
  unfold Product.AddStock at h
  split at h
  · exact absurd h (by simp)
  · rename_i hv
    simp only [Except.ok.injEq] at h
    exact ⟨by omega, h.symm⟩

/-- Characterization of a successful RemoveStock. -/
theorem RemoveStock_ok {p : Product} {v : Int} {now : Nat} {q : Product}
    (h : p.RemoveStock v now = .ok q) :
    0 < v ∧ v ≤ p.Stock ∧ q = { p with Stock := wrap64 (p.Stock - v), UpdatedAt := now } := by
  unfold Product.RemoveStock at h
  split at h
  · exact absurd h (by simp)
  · split at h
    · exact absurd h (by simp)
    · rename_i hv hst
      simp only [Except.ok.injEq] at h
      exact ⟨by omega, by omega, h.symm⟩

/-- C3 (amended): every mutation that goes through an entity mutator method
(price update, stock update, stock add/remove, activation and deactivation,
user email/name update) re-stamps UpdatedAt; deactivate then activate under
a strictly advancing clock advances UpdatedAt on both calls, restores
IsActive = true, and availability reflects the flag immediately; but the
product update path that provides only Name (or Description/Category)
assigns the field directly and saves without re-stamping UpdatedAt. -/
theorem c3_updatedAt_on_mutation :
    (∀ (p : Product) (v : GoFloat) (now : Nat) (q : Product),
      p.UpdatePrice v now = .ok q → q.UpdatedAt = now) ∧
    (∀ (p : Product) (v : Int) (now : Nat) (q : Product),
      p.UpdateStock v now = .ok q → q.UpdatedAt = now) ∧
    (∀ (p : Product) (v : Int) (now : Nat) (q : Product),
      p.AddStock v now = .ok q → q.UpdatedAt = now) ∧
    (∀ (p : Product) (v : Int) (now : Nat) (q : Product),
      p.RemoveStock v now = .ok q → q.UpdatedAt = now) ∧
    (∀ (p : Product) (now : Nat),
      (p.Deactivate now).UpdatedAt = now ∧ (p.Activate now).UpdatedAt = now) ∧
    (∀ (u : User) (e : String) (now : Nat) (q : User),
      u.UpdateEmail e now = .ok q → q.UpdatedAt = now) ∧
    (∀ (u : User) (n : String) (now : Nat) (q : User),
      u.UpdateName n now = .ok q → q.UpdatedAt = now) ∧
    (∀ (s : ProductStore) (id : String) (p : Product) (n1 n2 : Nat),
      InMemoryProductRepository.FindByID s id = some p → p.ID = id →
      p.UpdatedAt < n1 → n1 < n2 →
      ProductProcessor.DeactivateProduct s id n1
          = (.ok (p.Deactivate n1), InMemoryProductRepository.Save s (p.Deactivate n1)) ∧
        p.UpdatedAt < (p.Deactivate n1).UpdatedAt ∧
        (p.Deactivate n1).IsActive = false ∧
        (p.Deactivate n1).IsAvailable = false ∧
        ProductProcessor.ActivateProduct
            (InMemoryProductRepository.Save s (p.Deactivate n1)) id n2
          = (.ok ((p.Deactivate n1).Activate n2),
             InMemoryProductRepository.Save
               (InMemoryProductRepository.Save s (p.Deactivate n1))
               ((p.Deactivate n1).Activate n2)) ∧
        (p.Deactivate n1).UpdatedAt < ((p.Deactivate n1).Activate n2).UpdatedAt ∧
        ((p.Deactivate n1).Activate n2).IsActive = true ∧
        ((p.Deactivate n1).Activate n2).IsAvailable = decide (0 < p.Stock)) ∧
    (∀ (s : ProductStore) (id : String) (p : Product) (n : String) (now : Nat),
      InMemoryProductRepository.FindByID s id = some p →
      (ProductProcessor.UpdateProduct s id (some n) none none none none now).1
          = .ok { p with Name := n }) := by
  refine ⟨?_, ?_, ?_, ?_, ?_, ?_, ?_, ?_, ?_⟩
  · intro p v now q h
    rw [(UpdatePrice_ok h).2]
  · intro p v now q h
    rw [(UpdateStock_ok h).2]
  · intro p v now q h
    rw [(AddStock_ok h).2]
  · intro p v now q h
    rw [(RemoveStock_ok h).2.2]
  · intro p now
    exact ⟨rfl, rfl⟩
  · intro u e now q h
    unfold User.UpdateEmail at h
    split at h
    · exact absurd h (by simp)
    · simp only [Except.ok.injEq] at h
      rw [← h]
  · intro u n now q h
    unfold User.UpdateName at h
    split at h
    · exact absurd h (by simp)
    · simp only [Except.ok.injEq] at h
      rw [← h]
  · intro s id p n1 n2 hF hid h1 h2
    have hdeact : ProductProcessor.DeactivateProduct s id n1
        = (.ok (p.Deactivate n1), InMemoryProductRepository.Save s (p.Deactivate n1)) := by
      unfold ProductProcessor.DeactivateProduct
      rw [hF]
    have hp1id : (p.Deactivate n1).ID = id := hid
    have hf2 : InMemoryProductRepository.FindByID
        (InMemoryProductRepository.Save s (p.Deactivate n1)) id = some (p.Deactivate n1) := by
      unfold InMemoryProductRepository.FindByID InMemoryProductRepository.Save
      rw [← hp1id]
      exact lookup_storeSave_self _ _ _
    have hact : ProductProcessor.ActivateProduct
        (InMemoryProductRepository.Save s (p.Deactivate n1)) id n2
        = (.ok ((p.Deactivate n1).Activate n2),
           InMemoryProductRepository.Save
             (InMemoryProductRepository.Save s (p.Deactivate n1))
             ((p.Deactivate n1).Activate n2)) := by
      unfold ProductProcessor.ActivateProduct
      rw [hf2]
    refine ⟨hdeact, h1, rfl, rfl, hact, ?_, rfl, ?_⟩
    · exact h2
    · simp [Product.IsAvailable, Product.Activate, Product.Deactivate]
  · intro s id p n now hF
    unfold ProductProcessor.UpdateProduct
    rw [hF]
    rfl

/-- Concrete instantiation of c3_updatedAt_on_mutation: a name-only update
of the demo product at time 5 returns the product with UpdatedAt still 0. -/
theorem c3_updatedAt_on_mutation_witness :
    (ProductProcessor.UpdateProduct demoProductStore "prod-1" (some "N") none none
        none none 5).1
      = .ok { ID := "prod-1", Name := "N", Description := "A widget",
              Price := GoFloat.num 5, Stock := 10, Category := "tools",
              CreatedAt := 0, UpdatedAt := 0, IsActive := true } :=
  c3_updatedAt_on_mutation.2.2.2.2.2.2.2.2 demoProductStore "prod-1"
    { ID := "prod-1", Name := "Widget", Description := "A widget",
      Price := GoFloat.num 5, Stock := 10, Category := "tools",
      CreatedAt := 0, UpdatedAt := 0, IsActive := true } "N" 5 (by decide)

/-- Counterexample to C3 as stated: a successful product update providing
only a new Name at time 5 does not re-stamp UpdatedAt — the returned and
persisted entity keep UpdatedAt = 0 (the creation time), not 5. -/
theorem c3_as_stated_counterexample :
    (okOf (ProductProcessor.UpdateProduct demoProductStore "prod-1" (some "NewName")
        none none none none 5).1).map (fun p => p.UpdatedAt) = some 0 ∧
    (InMemoryProductRepository.FindByID
        (ProductProcessor.UpdateProduct demoProductStore "prod-1" (some "NewName")
          none none none none 5).2 "prod-1").map (fun p => p.UpdatedAt) = some 0 ∧
    (0 : Nat) ≠ 5 := by
  decide

/-! ## Store-level invariant machinery for C9 -/

/-- Invariant of the product store: no stored product's price compares
below zero (it is >= 0 or NaN), and every stored stock is in the
non-negative half of Go's int range. -/
def ProductStoreInv (s : ProductStore) : Prop :=
  ∀ kv ∈ s, GoFloat.flt kv.2.Price (GoFloat.num 0) = false ∧
    0 ≤ kv.2.Stock ∧ kv.2.Stock < 9223372036854775808

/-- Saving an entity that satisfies the bounds preserves the store invariant. -/
theorem storeInv_save {s : ProductStore} {q : Product} (hs : ProductStoreInv s)
    (hq : GoFloat.flt q.Price (GoFloat.num 0) = false ∧
      0 ≤ q.Stock ∧ q.Stock < 9223372036854775808) :
    ProductStoreInv (InMemoryProductRepository.Save s q) := by
  intro kv hkv
  rcases mem_storeSave hkv with h | h
  · rw [h]
    exact hq
  · exact hs kv h

/-- Every product found in an invariant-satisfying store satisfies the bounds. -/
theorem storeInv_find {s : ProductStore} {id : String} {p : Product}
    (hs : ProductStoreInv s) (h : InMemoryProductRepository.FindByID s id = some p) :
    GoFloat.flt p.Price (GoFloat.num 0) = false ∧
      0 ≤ p.Stock ∧ p.Stock < 9223372036854775808 :=
  hs (id, p) (lookup_mem h)

/-- The direct string-field assignments of UpdateProduct do not touch Price
or Stock. -/
theorem stringFields_price_stock (p : Product) (n d c : Option String) :
    (updateProductStringFields p n d c).Price = p.Price ∧
      (updateProductStringFields p n d c).Stock = p.Stock := by
  cases n <;> cases d <;> cases c <;> exact ⟨rfl, rfl⟩

/-- Optional price application keeps the bounds: on success the new price
does not compare below zero and the stock is untouched. -/
theorem applyOptPrice_ok {p : Product} {price : Option GoFloat} {now : Nat} {q : Product}
    (h : applyOptPrice p price now = .ok q)
    (hp : GoFloat.flt p.Price (GoFloat.num 0) = false) :
    GoFloat.flt q.Price (GoFloat.num 0) = false ∧ q.Stock = p.Stock := by
  cases price with
  | none =>
    simp only [applyOptPrice] at h
    simp only [Except.ok.injEq] at h
    rw [← h]
    exact ⟨hp, rfl⟩
  | some v =>
    simp only [applyOptPrice] at h
    obtain ⟨hv, hq⟩ := UpdatePrice_ok h
    rw [hq]
    exact ⟨hv, rfl⟩

/-- Optional stock application keeps the bounds: on success the new stock
stays in [0, 2^63) — the provided value is a Go int, hence below 2^63 — and
the price is untouched. -/
theorem applyOptStock_ok {p : Product} {stock : Option Int} {now : Nat} {q : Product}
    (h : applyOptStock p stock now = .ok q)
    (hp : 0 ≤ p.Stock ∧ p.Stock < 9223372036854775808)
    (hw : ∀ w, stock = some w → w < 9223372036854775808) :
    (0 ≤ q.Stock ∧ q.Stock < 9223372036854775808) ∧ q.Price = p.Price := by
  cases stock with
  | none =>
    simp only [applyOptStock] at h
    simp only [Except.ok.injEq] at h
    rw [← h]
    exact ⟨hp, rfl⟩
  | some v =>
    simp only [applyOptStock] at h
    obtain ⟨hv, hq⟩ := UpdateStock_ok h
    rw [hq]
    exact ⟨⟨hv, hw v rfl⟩, rfl⟩

/-- Reduction of the price/stock phase once the price step failed. -/
theorem updatePS_reduce_err {p : Product} {price : Option GoFloat} {now : Nat} {e : String}
    (s : ProductStore) (stock : Option Int) (hP : applyOptPrice p price now = .error e) :
    updateProductPriceStock s p price stock now = (.error e, s) := by
  unfold updateProductPriceStock
  rw [hP]

/-- Reduction of the price/stock phase once the price step succeeded. -/
theorem updatePS_reduce_ok {p : Product} {price : Option GoFloat} {now : Nat} {q : Product}
    (s : ProductStore) (stock : Option Int) (hP : applyOptPrice p price now = .ok q) :
    updateProductPriceStock s p price stock now
      = (match applyOptStock q stock now with
         | .error e => (.error e, s)
         | .ok r => (.ok r, InMemoryProductRepository.Save s r)) := by
  unfold updateProductPriceStock
  rw [hP]

/-- The price/stock phase preserves the store invariant when the provided
stock value, if any, is a Go int. -/
theorem updatePS_inv (s : ProductStore) (p : Product) (price : Option GoFloat)
    (stock : Option Int) (now : Nat) (hs : ProductStoreInv s)
    (hp : GoFloat.flt p.Price (GoFloat.num 0) = false ∧
      0 ≤ p.Stock ∧ p.Stock < 9223372036854775808)
    (hw : ∀ w, stock = some w → w < 9223372036854775808) :
    ProductStoreInv ((updateProductPriceStock s p price stock now).2) := by
  cases hP : applyOptPrice p price now with
  | error e =>
    rw [updatePS_reduce_err s stock hP]
    exact hs
  | ok q =>
    rw [updatePS_reduce_ok s stock hP]
    obtain ⟨hq1, hq2⟩ := applyOptPrice_ok hP hp.1
    cases hS : applyOptStock q stock now with
    | error e => exact hs
    | ok r =>
      obtain ⟨hr1, hr2⟩ := applyOptStock_ok hS
        ⟨by rw [hq2]; exact hp.2.1, by rw [hq2]; exact hp.2.2⟩ hw
      exact storeInv_save hs ⟨by rw [hr2]; exact hq1, hr1.1, hr1.2⟩

/-- A failing price/stock phase leaves the store untouched. -/
theorem updatePS_err (s : ProductStore) (p : Product) (price : Option GoFloat)
    (stock : Option Int) (now : Nat) (e : String)
    (h : (updateProductPriceStock s p price stock now).1 = .error e) :
    (updateProductPriceStock s p price stock now).2 = s := by
  cases hP : applyOptPrice p price now with
  | error e2 =>
    rw [updatePS_reduce_err s stock hP]
  | ok q =>
    rw [updatePS_reduce_ok s stock hP] at h ⊢
    cases hS : applyOptStock q stock now with
    | error e2 => rfl
    | ok r =>
      rw [hS] at h
      exact absurd h (by simp)

/-- Reduction of ProductProcessor.UpdateProduct on a found product. -/
theorem updateProduct_reduce (s : ProductStore) (id : String)
    (n d c : Option String) (price : Option GoFloat) (stock : Option Int)
    (now : Nat) {p : Product}
    (hF : InMemoryProductRepository.FindByID s id = some p) :
    ProductProcessor.UpdateProduct s id n d c price stock now
      = updateProductPriceStock s (updateProductStringFields p n d c) price stock now := by
  unfold ProductProcessor.UpdateProduct
  rw [hF]

/-- Reduction of ProductProcessor.UpdateProduct on a missing product. -/
theorem updateProduct_notfound (s : ProductStore) (id : String)
    (n d c : Option String) (price : Option GoFloat) (stock : Option Int)
    (now : Nat) (hF : InMemoryProductRepository.FindByID s id = none) :
    ProductProcessor.UpdateProduct s id n d c price stock now
      = (.error "product not found", s) := by
  unfold ProductProcessor.UpdateProduct
  rw [hF]

/-- Reduction of ProductProcessor.AddStock on a found product. -/
theorem procAddStock_reduce (s : ProductStore) (id : String) (v : Int) (now : Nat)
    {p : Product} (hF : InMemoryProductRepository.FindByID s id = some p) :
    ProductProcessor.AddStock s id v now
      = (match p.AddStock v now with
         | .error e => (.error e, s)
         | .ok q => (.ok q, InMemoryProductRepository.Save s q)) := by
  unfold ProductProcessor.AddStock
  rw [hF]

/-- Reduction of ProductProcessor.RemoveStock on a found product. -/
theorem procRemoveStock_reduce (s : ProductStore) (id : String) (v : Int) (now : Nat)
    {p : Product} (hF : InMemoryProductRepository.FindByID s id = some p) :
    ProductProcessor.RemoveStock s id v now
      = (match p.RemoveStock v now with
         | .error e => (.error e, s)
         | .ok q => (.ok q, InMemoryProductRepository.Save s q)) := by
  unfold ProductProcessor.RemoveStock
  rw [hF]

/-- Reduction of ProductProcessor.UpdateStock on a found product. -/
theorem procUpdateStock_reduce (s : ProductStore) (id : String) (v : Int) (now : Nat)
    {p : Product} (hF : InMemoryProductRepository.FindByID s id = some p) :
    ProductProcessor.UpdateStock s id v now
      = (match p.UpdateStock v now with
         | .error e => (.error e, s)
         | .ok q => (.ok q, InMemoryProductRepository.Save s q)) := by
  unfold ProductProcessor.UpdateStock
  rw [hF]

/-- CreateProduct preserves the store invariant; the provided stock is a Go
int, hence below 2^63. -/
theorem createProduct_inv (s : ProductStore) (id name d c : String)
    (price : GoFloat) (stock : Int) (now : Nat)
    (hstk : stock < 9223372036854775808) (hs : ProductStoreInv s) :
    ProductStoreInv ((ProductProcessor.CreateProduct s id name d c price stock now).2) := by
  unfold ProductProcessor.CreateProduct
  by_cases hE : InMemoryProductRepository.Exists s id
  · rw [if_pos hE]
    exact hs
  · rw [if_neg hE]
    cases hN : NewProduct id name d c price stock now with
    | error e => exact hs
    | ok p =>
      obtain ⟨-, -, hpr, hst, hp⟩ := NewProduct_ok hN
      exact storeInv_save hs
        ⟨by rw [hp]; exact hpr, by rw [hp]; exact hst, by rw [hp]; exact hstk⟩

/-- UpdateProduct preserves the store invariant when the provided stock
value, if any, is a Go int. -/
theorem updateProduct_inv (s : ProductStore) (id : String) (n d c : Option String)
    (price : Option GoFloat) (stock : Option Int) (now : Nat)
    (hw : ∀ w, stock = some w → w < 9223372036854775808) (hs : ProductStoreInv s) :
    ProductStoreInv ((ProductProcessor.UpdateProduct s id n d c price stock now).2) := by
  cases hF : InMemoryProductRepository.FindByID s id with
  | none =>
    rw [updateProduct_notfound s id n d c price stock now hF]
    exact hs
  | some p =>
    rw [updateProduct_reduce s id n d c price stock now hF]
    have hp := storeInv_find hs hF
    have hsf := stringFields_price_stock p n d c
    exact updatePS_inv s _ price stock now hs
      ⟨by rw [hsf.1]; exact hp.1, by rw [hsf.2]; exact hp.2.1,
       by rw [hsf.2]; exact hp.2.2⟩ hw

/-- The stock-setting processor operation preserves the store invariant;
the provided stock is a Go int, hence below 2^63. -/
theorem procUpdateStock_inv (s : ProductStore) (id : String) (v : Int) (now : Nat)
    (hv63 : v < 9223372036854775808) (hs : ProductStoreInv s) :
    ProductStoreInv ((ProductProcessor.UpdateStock s id v now).2) := by
  cases hF : InMemoryProductRepository.FindByID s id with
  | none =>
    unfold ProductProcessor.UpdateStock
    rw [hF]
    exact hs
  | some p =>
    rw [procUpdateStock_reduce s id v now hF]
    have hp := storeInv_find hs hF
    cases hU : p.UpdateStock v now with
    | error e => exact hs
    | ok q =>
      obtain ⟨hv, hq⟩ := UpdateStock_ok hU
      exact storeInv_save hs
        ⟨by rw [hq]; exact hp.1, by rw [hq]; exact hv, by rw [hq]; exact hv63⟩

/-- The stock-adding processor operation preserves the store invariant
only in the absence of 64-bit overflow: the hypothesis bounds the stored
stock plus the delta below 2^63.  Without it the wrapping addition can
drive the stored stock negative (see the C9 counterexample). -/
theorem procAddStock_inv (s : ProductStore) (id : String) (v : Int) (now : Nat)
    {p : Product} (hF : InMemoryProductRepository.FindByID s id = some p)
    (hov : p.Stock + v < 9223372036854775808) (hs : ProductStoreInv s) :
    ProductStoreInv ((ProductProcessor.AddStock s id v now).2) := by
  rw [procAddStock_reduce s id v now hF]
  obtain ⟨hpp, hps0, hpsH⟩ := storeInv_find hs hF
  cases hU : p.AddStock v now with
  | error e => exact hs
  | ok q =>
    obtain ⟨hv, hq⟩ := AddStock_ok hU
    have hq1 : q.Price = p.Price := by rw [hq]
    have hq2 : q.Stock = wrap64 (p.Stock + v) := by rw [hq]
    have hwr : wrap64 (p.Stock + v) = p.Stock + v :=
      wrap64_eq_self (by omega) (by omega)
    exact storeInv_save hs
      ⟨by rw [hq1]; exact hpp, by rw [hq2, hwr]; omega, by rw [hq2, hwr]; omega⟩

/-- The stock-removing processor operation preserves the store invariant. -/
theorem procRemoveStock_inv (s : ProductStore) (id : String) (v : Int) (now : Nat)
    (hs : ProductStoreInv s) :
    ProductStoreInv ((ProductProcessor.RemoveStock s id v now).2) := by
  cases hF : InMemoryProductRepository.FindByID s id with
  | none =>
    unfold ProductProcessor.RemoveStock
    rw [hF]
    exact hs
  | some p =>
    rw [procRemoveStock_reduce s id v now hF]
    obtain ⟨hpp, hps0, hpsH⟩ := storeInv_find hs hF
    cases hU : p.RemoveStock v now with
    | error e => exact hs
    | ok q =>
      obtain ⟨hv, hvs, hq⟩ := RemoveStock_ok hU
      have hq1 : q.Price = p.Price := by rw [hq]
      have hq2 : q.Stock = wrap64 (p.Stock - v) := by rw [hq]
      have hwr : wrap64 (p.Stock - v) = p.Stock - v :=
        wrap64_eq_self (by omega) (by omega)
      exact storeInv_save hs
        ⟨by rw [hq1]; exact hpp, by rw [hq2, hwr]; omega, by rw [hq2, hwr]; omega⟩

/-- Activation preserves the store invariant. -/
theorem procActivate_inv (s : ProductStore) (id : String) (now : Nat)
    (hs : ProductStoreInv s) :
    ProductStoreInv ((ProductProcessor.ActivateProduct s id now).2) := by
  cases hF : InMemoryProductRepository.FindByID s id with
  | none =>
    unfold ProductProcessor.ActivateProduct
    rw [hF]
    exact hs
  | some p =>
    have hred : ProductProcessor.ActivateProduct s id now
        = (.ok (p.Activate now), InMemoryProductRepository.Save s (p.Activate now)) := by
      unfold ProductProcessor.ActivateProduct
      rw [hF]
    rw [hred]
    obtain ⟨h1, h2⟩ := storeInv_find hs hF
    exact storeInv_save hs ⟨h1, h2⟩

/-- Deactivation preserves the store invariant. -/
theorem procDeactivate_inv (s : ProductStore) (id : String) (now : Nat)
    (hs : ProductStoreInv s) :
    ProductStoreInv ((ProductProcessor.DeactivateProduct s id now).2) := by
  cases hF : InMemoryProductRepository.FindByID s id with
  | none =>
    unfold ProductProcessor.DeactivateProduct
    rw [hF]
    exact hs
  | some p =>
    have hred : ProductProcessor.DeactivateProduct s id now
        = (.ok (p.Deactivate now), InMemoryProductRepository.Save s (p.Deactivate now)) := by
      unfold ProductProcessor.DeactivateProduct
      rw [hF]
    rw [hred]
    obtain ⟨h1, h2⟩ := storeInv_find hs hF
    exact storeInv_save hs ⟨h1, h2⟩

/-- A failing RemoveStock call leaves the store untouched. -/
theorem procRemoveStock_err (s : ProductStore) (id : String) (v : Int) (now : Nat)
    (e : String) (h : (ProductProcessor.RemoveStock s id v now).1 = .error e) :
    (ProductProcessor.RemoveStock s id v now).2 = s := by
  cases hF : InMemoryProductRepository.FindByID s id with
  | none =>
    unfold ProductProcessor.RemoveStock
    rw [hF]
  | some p =>
    rw [procRemoveStock_reduce s id v now hF] at h ⊢
    cases hU : p.RemoveStock v now with
    | error e2 => rfl
    | ok q =>
      rw [hU] at h
      exact absurd h (by simp)

/-- A failing AddStock call leaves the store untouched. -/
theorem procAddStock_err (s : ProductStore) (id : String) (v : Int) (now : Nat)
    (e : String) (h : (ProductProcessor.AddStock s id v now).1 = .error e) :
    (ProductProcessor.AddStock s id v now).2 = s := by
  cases hF : InMemoryProductRepository.FindByID s id with
  | none =>
    unfold ProductProcessor.AddStock
    rw [hF]
  | some p =>
    rw [procAddStock_reduce s id v now hF] at h ⊢
    cases hU : p.AddStock v now with
    | error e2 => rfl
    | ok q =>
      rw [hU] at h
      exact absurd h (by simp)

/-- A failing stock-setting call leaves the store untouched. -/
theorem procUpdateStock_err (s : ProductStore) (id : String) (v : Int) (now : Nat)
    (e : String) (h : (ProductProcessor.UpdateStock s id v now).1 = .error e) :
    (ProductProcessor.UpdateStock s id v now).2 = s := by
  cases hF : InMemoryProductRepository.FindByID s id with
  | none =>
    unfold ProductProcessor.UpdateStock
    rw [hF]
  | some p =>
    rw [procUpdateStock_reduce s id v now hF] at h ⊢
    cases hU : p.UpdateStock v now with
    | error e2 => rfl
    | ok q =>
      rw [hU] at h
      exact absurd h (by simp)

/-- A failing UpdateProduct call leaves the store untouched. -/
theorem updateProduct_err (s : ProductStore) (id : String) (n d c : Option String)
    (price : Option GoFloat) (stock : Option Int) (now : Nat) (e : String)
    (h : (ProductProcessor.UpdateProduct s id n d c price stock now).1 = .error e) :
    (ProductProcessor.UpdateProduct s id n d c price stock now).2 = s := by
  cases hF : InMemoryProductRepository.FindByID s id with
  | none =>
    rw [updateProduct_notfound s id n d c price stock now hF]
  | some p =>
    rw [updateProduct_reduce s id n d c price stock now hF] at h ⊢
    exact updatePS_err s _ price stock now e h

/-- C9 (amended): construction and the price/stock mutators reject any
value that compares below zero — a NaN price compares false against 0 and
is accepted — and any delta that would make the stock negative without
wrapping; a rejected processor mutation leaves the store entirely
unchanged; every stored product's price never compares below zero and, as
long as no AddStock call overflows Go's 64-bit int and provided stock
values are Go ints (below 2^63), the stored stocks stay in [0, 2^63) under
all seven processor operations.  An AddStock delta that pushes the stored
stock to 2^63 or beyond wraps it negative. -/
theorem c9_price_stock_invariant :
    (∀ (id name d c : String) (price : GoFloat) (stock : Int) (now : Nat) (p : Product),
      NewProduct id name d c price stock now = .ok p →
        GoFloat.flt p.Price (GoFloat.num 0) = false ∧ 0 ≤ p.Stock) ∧
    (∀ (id name d c : String) (price : GoFloat) (stock : Int) (now : Nat),
      GoFloat.flt price (GoFloat.num 0) = true ∨ stock < 0 →
        ∃ e, NewProduct id name d c price stock now = .error e) ∧
    (∀ (p : Product) (v : GoFloat) (now : Nat),
      GoFloat.flt v (GoFloat.num 0) = true →
      p.UpdatePrice v now = .error "price cannot be negative") ∧
    (∀ (p : Product) (v : Int) (now : Nat), v < 0 →
      p.UpdateStock v now = .error "stock cannot be negative") ∧
    (∀ (p : Product) (v : Int) (now : Nat), v ≤ 0 →
      p.AddStock v now = .error "quantity must be positive") ∧
    (∀ (p : Product) (v : Int) (now : Nat), 0 < v → p.Stock < v →
      p.RemoveStock v now = .error "insufficient stock") ∧
    (∀ (s : ProductStore) (id : String) (v : Int) (now : Nat) (e : String),
      (ProductProcessor.RemoveStock s id v now).1 = .error e →
        (ProductProcessor.RemoveStock s id v now).2 = s) ∧
    (∀ (s : ProductStore) (id : String) (v : Int) (now : Nat) (e : String),
      (ProductProcessor.AddStock s id v now).1 = .error e →
        (ProductProcessor.AddStock s id v now).2 = s) ∧
    (∀ (s : ProductStore) (id : String) (v : Int) (now : Nat) (e : String),
      (ProductProcessor.UpdateStock s id v now).1 = .error e →
        (ProductProcessor.UpdateStock s id v now).2 = s) ∧
    (∀ (s : ProductStore) (id : String) (n d c : Option String)
        (price : Option GoFloat) (stock : Option Int) (now : Nat) (e : String),
      (ProductProcessor.UpdateProduct s id n d c price stock now).1 = .error e →
        (ProductProcessor.UpdateProduct s id n d c price stock now).2 = s) ∧
    (∀ (p : Product) (v : Int) (now : Nat),
      0 ≤ p.Stock → p.Stock < 9223372036854775808 →
      v < 9223372036854775808 → 9223372036854775808 ≤ p.Stock + v →
        ∃ q, p.AddStock v now = .ok q ∧ q.Stock < 0) ∧
    (∀ (s : ProductStore), ProductStoreInv s →
      (∀ (id name d c : String) (price : GoFloat) (stock : Int) (now : Nat),
        stock < 9223372036854775808 →
        ProductStoreInv ((ProductProcessor.CreateProduct s id name d c price stock now).2)) ∧
      (∀ (id : String) (n d c : Option String) (price : Option GoFloat)
          (stock : Option Int) (now : Nat),
        (∀ w, stock = some w → w < 9223372036854775808) →
        ProductStoreInv ((ProductProcessor.UpdateProduct s id n d c price stock now).2)) ∧
      (∀ (id : String) (v : Int) (now : Nat),
        (v < 9223372036854775808 →
          ProductStoreInv ((ProductProcessor.UpdateStock s id v now).2)) ∧
        ProductStoreInv ((ProductProcessor.RemoveStock s id v now).2)) ∧
      (∀ (id : String) (v : Int) (now : Nat) (p : Product),
        InMemoryProductRepository.FindByID s id = some p →
        p.Stock + v < 9223372036854775808 →
        ProductStoreInv ((ProductProcessor.AddStock s id v now).2)) ∧
      (∀ (id : String) (now : Nat),
        ProductStoreInv ((ProductProcessor.ActivateProduct s id now).2) ∧
        ProductStoreInv ((ProductProcessor.DeactivateProduct s id now).2))) := by
  refine ⟨?_, ?_, ?_, ?_, ?_, ?_, ?_, ?_, ?_, ?_, ?_, ?_⟩
  · intro id name d c price stock now p h
    obtain ⟨-, -, hpr, hst, hp⟩ := NewProduct_ok h
    exact ⟨by rw [hp]; exact hpr, by rw [hp]; exact hst⟩
  · intro id name d c price stock now h
    unfold NewProduct
    by_cases h1 : id = ""
    · rw [if_pos h1]
      exact ⟨_, rfl⟩
    · rw [if_neg h1]
      by_cases h2 : name = ""
      · rw [if_pos h2]
        exact ⟨_, rfl⟩
      · rw [if_neg h2]
        rcases h with hp | hs
        · rw [if_pos hp]
          exact ⟨_, rfl⟩
        · by_cases h3 : GoFloat.flt price (GoFloat.num 0) = true
          · rw [if_pos h3]
            exact ⟨_, rfl⟩
          · rw [if_neg h3, if_pos hs]
            exact ⟨_, rfl⟩
  · intro p v now h
    unfold Product.UpdatePrice
    rw [if_pos h]
  · intro p v now h
    unfold Product.UpdateStock
    rw [if_pos h]
  · intro p v now h
    unfold Product.AddStock
    rw [if_pos h]
  · intro p v now h1 h2
    unfold Product.RemoveStock
    rw [if_neg (by omega), if_pos h2]
  · exact procRemoveStock_err
  · exact procAddStock_err
  · exact procUpdateStock_err
  · exact updateProduct_err
  · intro p v now h0 hH hv hsum
    unfold Product.AddStock
    rw [if_neg (by omega : ¬(v ≤ 0))]
    refine ⟨_, rfl, ?_⟩
    show wrap64 (p.Stock + v) < 0
    exact wrap64_neg_of_overflow (by omega) (by omega)
  · intro s hs
    refine ⟨?_, ?_, ?_, ?_, ?_⟩
    · intro id name d c price stock now hstk
      exact createProduct_inv s id name d c price stock now hstk hs
    · intro id n d c price stock now hw
      exact updateProduct_inv s id n d c price stock now hw hs
    · intro id v now
      exact ⟨fun hv63 => procUpdateStock_inv s id v now hv63 hs,
        procRemoveStock_inv s id v now hs⟩
    · intro id v now p hF hov
      exact procAddStock_inv s id v now hF hov hs
    · intro id now
      exact ⟨procActivate_inv s id now hs, procDeactivate_inv s id now hs⟩

/-- Counterexample to C9 as stated: both halves of the claimed invariant
fail in reachable states.  A product created through the public
CreateProduct with a NaN price passes the price < 0 check yet the stored
price does not satisfy price >= 0 (both comparisons are false on NaN); and
an AddStock delta of 2^63 - 5 — a legal Go int, with no validator on that
path — passes the quantity <= 0 check and wraps the demo product's stock
from 10 to a negative value, returned and persisted. -/
theorem c9_as_stated_counterexample :
    (okOf (ProductProcessor.CreateProduct [] "p9" "W" "" "c" GoFloat.nan 1 0).1).map
        (fun p => GoFloat.fle (GoFloat.num 0) p.Price) = some false ∧
    (okOf (ProductProcessor.AddStock demoProductStore "prod-1"
        9223372036854775803 1).1).map (fun p => decide (p.Stock < 0)) = some true ∧
    (InMemoryProductRepository.FindByID
        (ProductProcessor.AddStock demoProductStore "prod-1"
          9223372036854775803 1).2 "prod-1").map
        (fun p => decide (p.Stock < 0)) = some true := by
  decide

/-- Concrete instantiation of c9_price_stock_invariant: a stock delta of
2^63 - 5 on stock 10 comes back negative from AddStock, and a rejected
RemoveStock of 30 on the demo store (stock 10) leaves the store unchanged. -/
theorem c9_price_stock_invariant_witness :
    (∃ q, Product.AddStock
        { ID := "prod-1", Name := "Widget", Description := "A widget",
          Price := GoFloat.num 5, Stock := 10, Category := "tools",
          CreatedAt := 0, UpdatedAt := 0, IsActive := true }
        9223372036854775803 1 = .ok q ∧ q.Stock < 0) ∧
    (ProductProcessor.RemoveStock demoProductStore "prod-1" 30 9).2 = demoProductStore :=
  ⟨c9_price_stock_invariant.2.2.2.2.2.2.2.2.2.2.1
     { ID := "prod-1", Name := "Widget", Description := "A widget",
       Price := GoFloat.num 5, Stock := 10, Category := "tools",
       CreatedAt := 0, UpdatedAt := 0, IsActive := true }
     9223372036854775803 1 (by decide) (by decide) (by decide) (by decide),
   c9_price_stock_invariant.2.2.2.2.2.2.1 demoProductStore "prod-1" 30 9
     "insufficient stock" rfl⟩

/-- Demonstration user for the concrete C5 instantiation. -/
def demoUser : User :=
  { ID := "u-1", Email := "a@b.co", Name := "Ann",
    CreatedAt := 0, UpdatedAt := 0, IsActive := true }

/-- Concrete instantiation of c5_second_create_already_exists: after creating
"u-1" on the empty store, a second create of "u-1" fails with the
already-exists error and the store keeps the first user. -/
theorem c5_second_create_already_exists_witness :
    UserProcessor.CreateUser [("u-1", demoUser)] "u-1" "x@y.co" "Bob" 1
        = (.error "user already exists", [("u-1", demoUser)]) ∧
      InMemoryUserRepository.FindByID [("u-1", demoUser)] "u-1" = some demoUser :=
  c5_second_create_already_exists.1 [] "u-1" "a@b.co" "Ann" 0 demoUser
    [("u-1", demoUser)] "x@y.co" "Bob" 1 rfl
